import Mathlib

/-!
# Cost-optimizer dashboard: shallow embedding and verification

This file embeds the pure core of the cost-estimation dashboard
(`src/src/App.tsx` and the unnamed variant `src/unnamed/part_000`) in Lean 4
and proves the specification's claims about it.

Conventions of the embedding:
* JS `number` values that hold currency amounts and multipliers are modelled
  as `ℚ` (the spec stipulates exact decimal arithmetic, with rounding only at
  display time).  Quantities are modelled as `Int`.
* JS arrays become `List`, the `pricingCatalog` record object becomes an
  association list keyed by category.
* String operations (`toLowerCase`, `trim`, `includes`) are modelled by their
  ASCII behaviour, which coincides with JS on every string in the catalogs.
* Both source variants share the whole computation pipeline; they differ only
  in the parts catalog, the second no-results message, and the `$` prefix of
  `formatCurrency`.  The shared pipeline is parameterised by the catalog and
  pricing table; the variant-specific pieces live in namespaces `App`
  (`src/src/App.tsx`) and `Dashboard` (`src/unnamed/part_000`).
-/

set_option maxRecDepth 4000

namespace CostOptimizer

/-- `interface Part` — one catalog entry (`App.tsx` lines 14-19). -/
structure Part where
  id : String
  name : String
  category : String
  basePrice : ℚ
deriving DecidableEq

/-- `interface PricingRule` — regional multiplier (`App.tsx` lines 21-24). -/
structure PricingRule where
  region : String
  multiplier : ℚ
deriving DecidableEq

/-- `interface CalculatedPart extends Part` (`App.tsx` lines 26-30).
The `extends Part` spread is flattened into explicit fields. -/
structure CalculatedPart where
  id : String
  name : String
  category : String
  basePrice : ℚ
  adjustedPrice : ℚ
  lineCost : ℚ
  calculatedQuantity : Int
deriving DecidableEq

/-- `pricingCatalog` — identical in both variants (`App.tsx` lines 48-54). -/
def pricingCatalog : List (String × PricingRule) :=
  [("Processor", { region := "US-West", multiplier := 1.05 }),
   ("Memory", { region := "EU-Central", multiplier := 0.98 }),
   ("Storage", { region := "Asia-Pac", multiplier := 1.10 }),
   ("Network", { region := "Global", multiplier := 1.00 }),
   ("Power Supply", { region := "Global", multiplier := 1.00 })]

/-- `previousPageValue` — the mock setup fee, 500.00 (`App.tsx` line 56). -/
def previousPageValue : ℚ := 500.00

namespace App

/-- `partsCatalog` of `src/src/App.tsx` (lines 34-46): eleven parts. -/
def partsCatalog : List Part :=
  [{ id := "CPU-001", name := "High-Performance Processor (i9)", category := "Processor", basePrice := 450.00 },
   { id := "CPU-002", name := "Mid-Range Processor (i5)", category := "Processor", basePrice := 210.00 },
   { id := "MEM-003", name := "32GB DDR5 RAM Module", category := "Memory", basePrice := 120.50 },
   { id := "MEM-004", name := "16GB DDR4 RAM Module", category := "Memory", basePrice := 55.00 },
   { id := "STR-005", name := "1TB NVMe SSD", category := "Storage", basePrice := 85.00 },
   { id := "STR-006", name := "4TB HDD Storage", category := "Storage", basePrice := 65.00 },
   { id := "NET-007", name := "10G Ethernet Card", category := "Network", basePrice := 115.00 },
   { id := "PWR-008", name := "750W Platinum PSU", category := "Power Supply", basePrice := 155.00 },
   { id := "PWR-009", name := "850W Gold PSU", category := "Power Supply", basePrice := 175.00 },
   { id := "NET-010", name := "5G WiFi Adapter", category := "Network", basePrice := 45.00 },
   { id := "STR-011", name := "512GB SATA SSD", category := "Storage", basePrice := 60.00 }]

end App

namespace Dashboard

/-- `partsCatalog` of `src/unnamed/part_000` (lines 26-41): twelve parts,
including a third Memory part `MEM-012`. -/
def partsCatalog : List Part :=
  [{ id := "CPU-001", name := "High-Performance Processor (i9)", category := "Processor", basePrice := 450.00 },
   { id := "CPU-002", name := "Mid-Range Processor (i5)", category := "Processor", basePrice := 210.00 },
   { id := "MEM-003", name := "32GB DDR5 RAM Module", category := "Memory", basePrice := 120.50 },
   { id := "MEM-004", name := "16GB DDR4 RAM Module", category := "Memory", basePrice := 55.00 },
   { id := "STR-005", name := "1TB NVMe SSD", category := "Storage", basePrice := 85.00 },
   { id := "STR-006", name := "4TB HDD Storage", category := "Storage", basePrice := 65.00 },
   { id := "NET-007", name := "10G Ethernet Card", category := "Network", basePrice := 115.00 },
   { id := "PWR-008", name := "750W Platinum PSU", category := "Power Supply", basePrice := 155.00 },
   { id := "PWR-009", name := "500W Gold PSU", category := "Power Supply", basePrice := 95.00 },
   { id := "NET-010", name := "1G Ethernet Card", category := "Network", basePrice := 45.00 },
   { id := "STR-011", name := "512GB SATA SSD", category := "Storage", basePrice := 55.00 },
   { id := "MEM-012", name := "64GB DDR5 RAM Module", category := "Memory", basePrice := 230.00 }]

end Dashboard

/-- Model of `Array.from(new Set(xs))`: keep the first occurrence of every
element, preserving order (JS `Set` iterates in insertion order).
`seen` accumulates the elements already emitted. -/
def jsSetDedupAux (seen : List String) : List String → List String
  | [] => []
  | a :: l => if seen.contains a then jsSetDedupAux seen l else a :: jsSetDedupAux (a :: seen) l

/-- `Array.from(new Set(xs))` on a list of strings. -/
def jsSetDedup (l : List String) : List String := jsSetDedupAux [] l

/-- `allCategories = Array.from(new Set(partsCatalog.map(p => p.category)))`
(`App.tsx` lines 67-69), parameterised by the catalog. -/
def allCategories (catalog : List Part) : List String :=
  jsSetDedup (catalog.map Part.category)

/-- `categoriesToFilter = selectedCategories.length > 0 ? selectedCategories
: allCategories` (`App.tsx` lines 80-82). -/
def categoriesToFilter (selectedCategories allCategories : List String) : List String :=
  if selectedCategories.length > 0 then selectedCategories else allCategories

/-- `globalQty = globalQuantity || 0` (`App.tsx` line 84).  The stored state
is an `Int` (the `onChange` handler never stores `NaN`), on which `|| 0` only
replaces the falsy value `0` by itself. -/
def globalQty (globalQuantity : Int) : Int :=
  if globalQuantity = 0 then 0 else globalQuantity

/-- Model of JS `s.toLowerCase()` (ASCII: every string in the catalogs and
every search term compared against them is ASCII). -/
def jsToLower (s : String) : String := ⟨s.data.map Char.toLower⟩

/-- Model of JS `s.trim()`: drop whitespace from both ends. -/
def jsTrim (s : String) : String :=
  ⟨((s.data.dropWhile Char.isWhitespace).reverse.dropWhile Char.isWhitespace).reverse⟩

/-- Does `needle` occur as a prefix of `hay`?  Helper for `jsIncludes`. -/
def beginsWith : List Char → List Char → Bool
  | [], _ => true
  | _ :: _, [] => false
  | a :: n, b :: h => a == b && beginsWith n h

/-- Helper for `jsIncludes`, scanning every suffix of the haystack. -/
def jsIncludesAux (needle : List Char) : List Char → Bool
  | [] => needle.isEmpty
  | c :: t => beginsWith needle (c :: t) || jsIncludesAux needle t

/-- Model of JS `hay.includes(needle)`: unanchored substring test. -/
def jsIncludes (hay needle : String) : Bool :=
  jsIncludesAux needle.data hay.data

/-- The `.filter` stage of the `filteredResults` memo (`App.tsx` lines
92-106): category membership plus the optional search predicate over the
lower-cased `name`, `id` and `category`. -/
def filterParts (catalog : List Part) (selectedCategories : List String)
    (searchTerm : String) : List Part :=
  let cats := categoriesToFilter selectedCategories (allCategories catalog)
  let term := jsTrim (jsToLower searchTerm)
  catalog.filter fun part =>
    let matchesCategory := cats.contains part.category
    let matchesSearch :=
      if term.data.length > 0 then
        jsIncludes (jsToLower part.name) term ||
          jsIncludes (jsToLower part.id) term ||
          jsIncludes (jsToLower part.category) term
      else true
    matchesCategory && matchesSearch

/-- `pricingCatalog[part.category] || { multiplier: 1.0 }` followed by
`.multiplier` (`App.tsx` lines 108-109): the category's multiplier, or 1.0
when the category is absent. -/
def liveMultiplier (table : List (String × PricingRule)) (category : String) : ℚ :=
  match List.lookup category table with
  | some pricing => pricing.multiplier
  | none => 1

/-- The `.map` stage of the `filteredResults` memo (`App.tsx` lines
107-120): build a `CalculatedPart` from a filtered part. -/
def priceCalc (table : List (String × PricingRule)) (globalQty : Int)
    (part : Part) : CalculatedPart :=
  let adjustedPrice := part.basePrice * liveMultiplier table part.category
  let lineCost := adjustedPrice * (globalQty : ℚ)
  { id := part.id, name := part.name, category := part.category,
    basePrice := part.basePrice, adjustedPrice := adjustedPrice,
    lineCost := lineCost, calculatedQuantity := globalQty }

/-- The `filteredResults` memo (`App.tsx` lines 87-121): short-circuit to
`[]` when `globalQty === 0`, otherwise filter then price. -/
def filteredResults (catalog : List Part) (table : List (String × PricingRule))
    (selectedCategories : List String) (searchTerm : String)
    (globalQty : Int) : List CalculatedPart :=
  if globalQty = 0 then []
  else (filterParts catalog selectedCategories searchTerm).map (priceCalc table globalQty)

/-- The `totalProjectCost` memo (`App.tsx` lines 124-138, numeric part;
the `isPulsing` side effect is presentation-layer noise): reduce the line
costs and conditionally add the setup fee. -/
def totalProjectCost (filteredResults : List CalculatedPart) (usePrevData : Bool) : ℚ :=
  let newTotalCost := filteredResults.foldl (fun sum item => sum + item.lineCost) 0
  if usePrevData then newTotalCost + previousPageValue else newTotalCost

/-- `getNoResultsText` of `src/src/App.tsx` (lines 140-145). -/
def App.getNoResultsText (globalQty : Int) : String :=
  if globalQty = 0 then
    "Please enter a valid quantity (> 0) to proceed with calculation."
  else "No parts match your current filter and search settings."

/-- `getNoResultsText` of `src/unnamed/part_000` (lines 215-220). -/
def Dashboard.getNoResultsText (globalQty : Int) : String :=
  if globalQty = 0 then
    "Please enter a valid quantity (> 0) to proceed with calculation."
  else "No parts match your selected filters and search term."

/-- `showNoResultsMessage = filteredResults.length === 0 && globalQty !== 0`
(`part_000` lines 191-193). -/
def Dashboard.showNoResultsMessage (filteredResults : List CalculatedPart)
    (globalQty : Int) : Bool :=
  filteredResults.length == 0 && globalQty != 0

/-- Numeric value of a list of decimal digit characters. -/
def digitsVal (ds : List Char) : Nat :=
  ds.foldl (fun n c => 10 * n + (c.toNat - 48)) 0

/-- Model of JS `parseInt(s)` on the decimal inputs a quantity field can
produce: skip leading whitespace, read an optional sign, then the longest
run of leading decimal digits; `none` models `NaN` (no digits).  The
hexadecimal `0x` auto-detection of `parseInt` is never exercised by a
`type="number"` input and is not modelled. -/
def jsParseInt (s : String) : Option Int :=
  let cs := s.data.dropWhile Char.isWhitespace
  let signAndRest : Int × List Char :=
    match cs with
    | '-' :: r => (-1, r)
    | '+' :: r => (1, r)
    | _ => (1, cs)
  let ds := signAndRest.2.takeWhile Char.isDigit
  if ds.isEmpty then none else some (signAndRest.1 * (digitsVal ds : Int))

/-- The quantity `onChange` handler `setGlobalQuantity(parseInt(e.target.value)
|| 0)` (`App.tsx` lines 207-214, `part_000` line 289): `|| 0` replaces the
falsy results `NaN` and `0` by `0` and keeps every other integer. -/
def coerceQuantity (rawInput : String) : Int :=
  match jsParseInt rawInput with
  | none => 0
  | some n => if n = 0 then 0 else n

/-- The character for the decimal digit `d` (meaningful for `d < 10`). -/
def digitChar (d : ℕ) : Char := Char.ofNat (48 + d)

/-- Decimal digit characters of a natural number, most significant first,
accumulated into `acc`; structural recursion on a fuel argument so that the
function reduces definitionally (`natDigitStr` always supplies enough fuel). -/
def natDigitsGo : ℕ → ℕ → List Char → List Char
  | 0, _, acc => acc
  | fuel + 1, n, acc =>
    if n < 10 then digitChar n :: acc
    else natDigitsGo fuel (n / 10) (digitChar (n % 10) :: acc)

/-- Decimal digit string of a natural number, most significant first. -/
def natDigitStr (n : ℕ) : List Char := natDigitsGo (n + 1) n []

/-- The two zero-padded fractional digits of a cent remainder `m < 100`. -/
def pad2 (m : ℕ) : List Char := [digitChar (m / 10 % 10), digitChar (m % 10)]

/-- Model of JS `amount.toFixed(2)` on the exact rational value of the
amount: round to the nearest number of cents — half up, per the ECMAScript
`toFixed` rule that picks the larger candidate on ties — and print the cents
as integer digits, a dot, and two fractional digits.  Negative amounts are
outside the modelled domain (every rendered amount in the dashboard is a
currency value). -/
def jsToFixed2 (amount : ℚ) : String :=
  let cents := (Int.floor (amount * 100 + 1 / 2)).toNat
  ⟨natDigitStr (cents / 100) ++ '.' :: pad2 (cents % 100)⟩

/-- A regex word character (`\w`), as used by the `\B` assertion. -/
def jsWordChar (c : Char) : Bool := c.isAlphanum || c == '_'

/-- Length of the leading run of decimal digit characters. -/
def digitRunLength : List Char → ℕ
  | [] => 0
  | c :: cs => if c.isDigit then digitRunLength cs + 1 else 0

/-- One left-to-right pass of `.replace(/\B(?=(\d{3})+(?!\d))/g, ",")`
(`App.tsx` line 61): the zero-width pattern matches at a position iff the
position is not a word boundary and the lookahead sees a positive multiple of
three digits not followed by another digit.  Since a successful lookahead
forces the next character to be a digit (a word character), the combined
condition is: the previous character is a word character and the leading
digit run of the remaining input has positive length divisible by three. -/
def jsGroupSepGo (prev : Option Char) : List Char → List Char
  | [] => []
  | c :: cs =>
    let d := digitRunLength (c :: cs)
    let matched :=
      (match prev with | some p => jsWordChar p | none => false)
        && d % 3 == 0 && d != 0
    if matched then ',' :: c :: jsGroupSepGo (some c) cs
    else c :: jsGroupSepGo (some c) cs

/-- `.replace(/\B(?=(\d{3})+(?!\d))/g, ",")` applied to a whole string. -/
def jsGroupSep (s : String) : String := ⟨jsGroupSepGo none s.data⟩

/-- `formatCurrency` of `src/src/App.tsx` (lines 60-61): a `$` sign followed
by `toFixed(2)` with the thousands-separator regex applied. -/
def App.formatCurrency (amount : ℚ) : String :=
  "$" ++ jsGroupSep (jsToFixed2 amount)

/-- `formatCurrency` of `src/unnamed/part_000` (lines 55-56): `toFixed(2)`
with the thousands-separator regex applied, and no currency sign. -/
def Dashboard.formatCurrency (amount : ℚ) : String :=
  jsGroupSep (jsToFixed2 amount)

/-- Spec-side grouping of the non-leading integer digits, following the
display-formatting contract's words: a comma is inserted before a digit
exactly when the count of integer digits from it (inclusive) to the decimal
point is a positive multiple of three. -/
def specGroupTail : List Char → List Char
  | [] => []
  | c :: cs => (if (cs.length + 1) % 3 = 0 then [','] else []) ++ c :: specGroupTail cs

/-- Spec-side grouping of the integer digits: no comma ever precedes the
leading digit. -/
def specGroupDigits : List Char → List Char
  | [] => []
  | c :: cs => c :: specGroupTail cs

/-- Spec-side rendering of a non-negative number of cents, following the
display-formatting contract's words: the integer digits with comma thousands
separators, then a dot and exactly two decimal digits — and nothing else. -/
def specCurrencyFormat (cents : ℕ) : String :=
  ⟨specGroupDigits (natDigitStr (cents / 100)) ++ '.' :: pad2 (cents % 100)⟩

/-! ## Helper lemmas -/

/-- The `reduce((sum, item) => sum + item.lineCost, 0)` accumulator computes
the sum of the line costs. -/
theorem foldl_lineCost (l : List CalculatedPart) (init : ℚ) :
    l.foldl (fun sum item => sum + item.lineCost) init
      = init + (l.map CalculatedPart.lineCost).sum := by
  induction l generalizing init with
  | nil => simp
  | cons c t ih => simp [ih, add_assoc]

/-- Closed form of `totalProjectCost`. -/
theorem totalProjectCost_eq_sum (results : List CalculatedPart) (usePrevData : Bool) :
    totalProjectCost results usePrevData
      = (results.map CalculatedPart.lineCost).sum
        + (if usePrevData then previousPageValue else 0) := by
  unfold totalProjectCost
  rw [foldl_lineCost]
  cases usePrevData <;> simp

theorem beginsWith_iff (needle hay : List Char) :
    beginsWith needle hay = true ↔ needle <+: hay := by
  induction needle generalizing hay with
  | nil => simp [beginsWith]
  | cons a n ih =>
    cases hay with
    | nil => simp [beginsWith]
    | cons b h =>
      simp only [beginsWith, Bool.and_eq_true, beq_iff_eq, ih, List.cons_prefix_cons]

theorem jsIncludesAux_iff (needle hay : List Char) :
    jsIncludesAux needle hay = true ↔ needle <:+: hay := by
  induction hay with
  | nil => simp [jsIncludesAux, List.infix_nil, List.isEmpty_iff]
  | cons c t ih =>
    simp [jsIncludesAux, List.infix_cons_iff, beginsWith_iff, ih]

/-- `jsIncludes` decides the unanchored-substring relation. -/
theorem jsIncludes_iff (hay needle : String) :
    jsIncludes hay needle = true ↔ needle.data <:+: hay.data :=
  jsIncludesAux_iff needle.data hay.data

/-! ## Claims -/

/-- C1: for every catalog, pricing table and selection state, the total cost
produced by the pipeline equals the sum of the `lineCost` of every part in the
filtered results plus `previousPageValue` (500.00) when the setup fee is
applied and plus 0 when it is not; an empty result sequence sums to 0, so the
total then equals the conditional fee alone. -/
theorem total_cost_summation_identity
    (catalog : List Part) (table : List (String × PricingRule))
    (selectedCategories : List String) (searchTerm : String) (globalQty : Int)
    (usePrevData : Bool) :
    totalProjectCost (filteredResults catalog table selectedCategories searchTerm globalQty) usePrevData
      = ((filteredResults catalog table selectedCategories searchTerm globalQty).map
          CalculatedPart.lineCost).sum
        + (if usePrevData then previousPageValue else 0)
    ∧ totalProjectCost [] usePrevData = (if usePrevData then previousPageValue else 0) := by
  refine ⟨totalProjectCost_eq_sum _ _, ?_⟩
  rw [totalProjectCost_eq_sum]
  simp

/-- C2: when the effective global quantity is 0 the pipeline returns an empty
result sequence and the total reduces to the conditional setup fee. -/
theorem quantity_zero_invariant
    (catalog : List Part) (table : List (String × PricingRule))
    (selectedCategories : List String) (searchTerm : String) (usePrevData : Bool) :
    filteredResults catalog table selectedCategories searchTerm 0 = [] ∧
    totalProjectCost (filteredResults catalog table selectedCategories searchTerm 0) usePrevData
      = (if usePrevData then previousPageValue else 0) := by
  have h : filteredResults catalog table selectedCategories searchTerm 0 = [] := by
    simp [filteredResults]
  refine ⟨h, ?_⟩
  rw [h, totalProjectCost_eq_sum]
  simp

/-- C6: filtering with an empty selected-category set produces exactly the
same result sequence as filtering with the set of all categories occurring in
the catalog, for every catalog, search term and quantity. -/
theorem empty_category_selection_invariant
    (catalog : List Part) (table : List (String × PricingRule))
    (searchTerm : String) (globalQty : Int) :
    filteredResults catalog table [] searchTerm globalQty
      = filteredResults catalog table (allCategories catalog) searchTerm globalQty := by
  have h1 : categoriesToFilter [] (allCategories catalog) = allCategories catalog := by
    simp [categoriesToFilter]
  have h2 : categoriesToFilter (allCategories catalog) (allCategories catalog)
      = allCategories catalog := by
    simp [categoriesToFilter]
  unfold filteredResults filterParts
  rw [h1, h2]

/-- C7: the no-results flag holds exactly when the filtered results are empty
and the effective quantity is not 0, and the message selector returns exactly
the two literal texts, selected by whether the quantity is 0. -/
theorem no_results_flag_and_messages :
    (∀ (results : List CalculatedPart) (globalQty : Int),
        Dashboard.showNoResultsMessage results globalQty = true
          ↔ results = [] ∧ globalQty ≠ 0) ∧
    (∀ globalQty : Int,
        Dashboard.getNoResultsText globalQty =
          if globalQty = 0 then
            "Please enter a valid quantity (> 0) to proceed with calculation."
          else "No parts match your selected filters and search term.") := by
  constructor
  · intro results q
    simp [Dashboard.showNoResultsMessage, List.length_eq_zero]
  · intro q
    rfl

theorem contains_iff_mem (l : List String) (a : String) : l.contains a = true ↔ a ∈ l := by
  simp

/-- C3: with a non-empty selected-category set the filter stage returns
exactly the catalog parts whose category is selected and which, when the
normalized search term is non-empty, contain it as an unanchored substring of
their lower-cased name, id or category — in the catalog's relative order
(the output is a sublist of the catalog). -/
theorem filter_engine_characterization
    (catalog : List Part) (selectedCategories : List String) (searchTerm : String)
    (hsel : selectedCategories ≠ []) :
    (filterParts catalog selectedCategories searchTerm).Sublist catalog ∧
    ∀ part : Part,
      part ∈ filterParts catalog selectedCategories searchTerm ↔
        part ∈ catalog ∧ part.category ∈ selectedCategories ∧
          (jsTrim (jsToLower searchTerm) = "" ∨
            (jsTrim (jsToLower searchTerm)).data <:+: (jsToLower part.name).data ∨
            (jsTrim (jsToLower searchTerm)).data <:+: (jsToLower part.id).data ∨
            (jsTrim (jsToLower searchTerm)).data <:+: (jsToLower part.category).data) := by
  have hcats : categoriesToFilter selectedCategories (allCategories catalog)
      = selectedCategories := by
    simp [categoriesToFilter, List.length_pos.mpr hsel]
  have hfp : filterParts catalog selectedCategories searchTerm
      = catalog.filter (fun part =>
          selectedCategories.contains part.category &&
            (if (jsTrim (jsToLower searchTerm)).data.length > 0 then
              jsIncludes (jsToLower part.name) (jsTrim (jsToLower searchTerm)) ||
                jsIncludes (jsToLower part.id) (jsTrim (jsToLower searchTerm)) ||
                jsIncludes (jsToLower part.category) (jsTrim (jsToLower searchTerm))
            else true)) := by
    simp only [filterParts]
    rw [hcats]
  constructor
  · rw [hfp]
    exact List.filter_sublist _
  · intro part
    rw [hfp, List.mem_filter]
    refine and_congr_right fun _ => ?_
    by_cases ht : (jsTrim (jsToLower searchTerm)).data.length > 0
    · have hne : ¬jsTrim (jsToLower searchTerm) = "" := by
        intro h
        rw [h] at ht
        simp at ht
      rw [if_pos ht]
      simp only [Bool.and_eq_true, Bool.or_eq_true, jsIncludes_iff, contains_iff_mem,
        or_assoc]
      constructor
      · rintro ⟨hc, hd⟩
        exact ⟨hc, Or.inr hd⟩
      · rintro ⟨hc, hd⟩
        refine ⟨hc, ?_⟩
        rcases hd with h | h
        · exact absurd h hne
        · exact h
    · have hterm : jsTrim (jsToLower searchTerm) = "" := by
        have h0 : (jsTrim (jsToLower searchTerm)).data = [] :=
          List.length_eq_zero.mp (by omega)
        apply String.ext
        rw [h0]
      rw [if_neg ht]
      simp [hterm, contains_iff_mem]

/-- Witness for C3 at the concrete selection `["Memory"]` with search term
`"ram"` over the App catalog. -/
theorem filter_engine_characterization_witness :
    (["Memory"] : List String) ≠ [] ∧
    (filterParts App.partsCatalog ["Memory"] "ram").Sublist App.partsCatalog :=
  ⟨by decide,
   (filter_engine_characterization App.partsCatalog ["Memory"] "ram" (by decide)).1⟩

/-- Rewriting every `region` field of a pricing table leaves lookups intact
except for the rewritten region. -/
theorem lookup_map_region (f : String → String) (table : List (String × PricingRule))
    (c : String) :
    List.lookup c (table.map fun e =>
        (e.1, ({ region := f e.2.region, multiplier := e.2.multiplier } : PricingRule)))
      = (List.lookup c table).map fun r =>
          { region := f r.region, multiplier := r.multiplier } := by
  induction table with
  | nil => rfl
  | cons e t ih =>
    obtain ⟨k, v⟩ := e
    cases hck : (c == k) with
    | true => simp [List.lookup, hck]
    | false => simp [List.lookup, hck, ih]

/-- C4: for every pricing table, part and positive quantity, the pricing
stage computes `adjustedPrice = basePrice * m` with `m` the multiplier found
for the part's category (1.0 when absent), `lineCost = adjustedPrice * q`,
records the quantity verbatim, and the rules' `region` fields have no effect
on the computed values. -/
theorem pricing_engine_spec (table : List (String × PricingRule)) (q : Int)
    (part : Part) (_hq : 0 < q) :
    (∀ rule : PricingRule, List.lookup part.category table = some rule →
        (priceCalc table q part).adjustedPrice = part.basePrice * rule.multiplier) ∧
    (List.lookup part.category table = none →
        (priceCalc table q part).adjustedPrice = part.basePrice) ∧
    (priceCalc table q part).lineCost = (priceCalc table q part).adjustedPrice * (q : ℚ) ∧
    (priceCalc table q part).calculatedQuantity = q ∧
    (∀ f : String → String,
        priceCalc (table.map fun e =>
            (e.1, { region := f e.2.region, multiplier := e.2.multiplier })) q part
          = priceCalc table q part) := by
  refine ⟨?_, ?_, rfl, rfl, ?_⟩
  · intro rule h
    simp [priceCalc, liveMultiplier, h]
  · intro h
    simp [priceCalc, liveMultiplier, h]
  · intro f
    simp only [priceCalc, liveMultiplier, lookup_map_region]
    cases List.lookup part.category table <;> simp

/-- Witness for C4: spec Scenario 1, the `CPU-001` part at quantity 50. -/
theorem pricing_engine_spec_witness :
    (0 : Int) < 50 ∧
    (priceCalc pricingCatalog 50
        { id := "CPU-001", name := "High-Performance Processor (i9)",
          category := "Processor", basePrice := 450.00 }).lineCost
      = (priceCalc pricingCatalog 50
          { id := "CPU-001", name := "High-Performance Processor (i9)",
            category := "Processor", basePrice := 450.00 }).adjustedPrice * (50 : ℚ) ∧
    (priceCalc pricingCatalog 50
        { id := "CPU-001", name := "High-Performance Processor (i9)",
          category := "Processor", basePrice := 450.00 }).calculatedQuantity = 50 :=
  ⟨by norm_num,
   (pricing_engine_spec pricingCatalog 50
      { id := "CPU-001", name := "High-Performance Processor (i9)",
        category := "Processor", basePrice := 450.00 } (by norm_num)).2.2.1,
   (pricing_engine_spec pricingCatalog 50
      { id := "CPU-001", name := "High-Performance Processor (i9)",
        category := "Processor", basePrice := 450.00 } (by norm_num)).2.2.2.1⟩

/-- C5 counterexample: the raw input `"-5"` does NOT coerce to 0 — it
coerces to the negative quantity -5, refuting the claim that coercion always
yields an integer greater than or equal to 0. -/
theorem quantity_coercion_counterexample :
    coerceQuantity "-5" = -5 ∧ coerceQuantity "-5" < 0 := by
  decide

/-- C5 amended: coercion maps any non-numeric input (and the input `"0"`) to
0 and truncates decimals toward zero, but a negative integer input is kept,
so `"abc"` yields 0 (hence the empty result set and the quantity-zero
message) while `"-5"` yields -5. -/
theorem quantity_coercion_amended :
    (∀ rawInput : String, jsParseInt rawInput = none → coerceQuantity rawInput = 0) ∧
    coerceQuantity "abc" = 0 ∧
    coerceQuantity "2.7" = 2 ∧
    coerceQuantity "-2.7" = -2 ∧
    coerceQuantity "-5" = -5 ∧
    (∀ (catalog : List Part) (table : List (String × PricingRule))
        (selectedCategories : List String) (searchTerm : String),
        filteredResults catalog table selectedCategories searchTerm (coerceQuantity "abc") = []) ∧
    Dashboard.getNoResultsText (coerceQuantity "abc")
      = "Please enter a valid quantity (> 0) to proceed with calculation." := by
  refine ⟨?_, by decide, by decide, by decide, by decide, ?_, by decide⟩
  · intro raw h
    simp [coerceQuantity, h]
  · intro catalog table sel term
    have h : coerceQuantity "abc" = 0 := by decide
    rw [h]
    simp [filteredResults]

/-- C8: with the App variant's static catalog and the pricing table, the
selection `selectedCategories = ["Memory"]`, empty search term, quantity 10
and no setup fee yields exactly the two Memory parts priced 120.50 and 55.00,
each adjusted by the Memory multiplier 0.98, and a total of exactly 1719.90
in exact decimal arithmetic. -/
theorem scenario3_memory_selection :
    filteredResults App.partsCatalog pricingCatalog ["Memory"] "" 10 =
      [{ id := "MEM-003", name := "32GB DDR5 RAM Module", category := "Memory",
         basePrice := 120.50, adjustedPrice := 118.09, lineCost := 1180.90,
         calculatedQuantity := 10 },
       { id := "MEM-004", name := "16GB DDR4 RAM Module", category := "Memory",
         basePrice := 55.00, adjustedPrice := 53.90, lineCost := 539.00,
         calculatedQuantity := 10 }] ∧
    liveMultiplier pricingCatalog "Memory" = 0.98 ∧
    totalProjectCost (filteredResults App.partsCatalog pricingCatalog ["Memory"] "" 10) false
      = 1719.90 ∧
    ((118.09 : ℚ) + 53.90) * 10 = 1719.90 := by
  have hlist : filteredResults App.partsCatalog pricingCatalog ["Memory"] "" 10 =
      [{ id := "MEM-003", name := "32GB DDR5 RAM Module", category := "Memory",
         basePrice := 120.50, adjustedPrice := 118.09, lineCost := 1180.90,
         calculatedQuantity := 10 },
       { id := "MEM-004", name := "16GB DDR4 RAM Module", category := "Memory",
         basePrice := 55.00, adjustedPrice := 53.90, lineCost := 539.00,
         calculatedQuantity := 10 }] := by
    have h : filteredResults App.partsCatalog pricingCatalog ["Memory"] "" 10 =
        [priceCalc pricingCatalog 10
          { id := "MEM-003", name := "32GB DDR5 RAM Module", category := "Memory",
            basePrice := 120.50 },
         priceCalc pricingCatalog 10
          { id := "MEM-004", name := "16GB DDR4 RAM Module", category := "Memory",
            basePrice := 55.00 }] := rfl
    have hm : List.lookup "Memory" pricingCatalog
        = some { region := "EU-Central", multiplier := 0.98 } := rfl
    rw [h]
    simp [priceCalc, liveMultiplier, hm]
    norm_num
  refine ⟨hlist, rfl, ?_, by norm_num⟩
  rw [hlist, totalProjectCost_eq_sum]
  simp
  norm_num

/-- C10: a negative stored quantity is not treated as zero: the short-circuit
does not fire, the filter and pricing stages run, every produced row records
the negative quantity and a `lineCost` of `adjustedPrice * q`, and with the
full App catalog selected and the fee enabled the total falls below the setup
fee (it is `500 + q * (sum of adjusted prices)`, hence negative for large
magnitudes). -/
theorem negative_quantity_flows_through
    (catalog : List Part) (table : List (String × PricingRule))
    (selectedCategories : List String) (searchTerm : String) (q : Int) (hq : q < 0) :
    filteredResults catalog table selectedCategories searchTerm (globalQty q)
      = (filterParts catalog selectedCategories searchTerm).map (priceCalc table q) ∧
    (∀ cp ∈ filteredResults catalog table selectedCategories searchTerm (globalQty q),
        cp.lineCost = cp.adjustedPrice * (q : ℚ) ∧ cp.calculatedQuantity = q) ∧
    totalProjectCost
        (filteredResults App.partsCatalog pricingCatalog
          (allCategories App.partsCatalog) "" (globalQty q)) true
      < previousPageValue := by
  have hne : q ≠ 0 := ne_of_lt hq
  have hg : globalQty q = q := by simp [globalQty, hne]
  have hres : ∀ (cat : List Part) (tab : List (String × PricingRule))
      (sel : List String) (term : String),
      filteredResults cat tab sel term (globalQty q)
        = (filterParts cat sel term).map (priceCalc tab q) := by
    intro cat tab sel term
    rw [hg]
    simp [filteredResults, hne]
  refine ⟨hres _ _ _ _, ?_, ?_⟩
  · intro cp hcp
    rw [hres] at hcp
    obtain ⟨p, _hp, rfl⟩ := List.mem_map.mp hcp
    exact ⟨rfl, rfl⟩
  · rw [hres, totalProjectCost_eq_sum]
    have hfull : filterParts App.partsCatalog (allCategories App.partsCatalog) ""
        = App.partsCatalog := rfl
    rw [hfull]
    have hmap : (App.partsCatalog.map (priceCalc pricingCatalog q)).map CalculatedPart.lineCost
        = App.partsCatalog.map
            (fun p => (p.basePrice * liveMultiplier pricingCatalog p.category) * (q : ℚ)) := by
      simp [priceCalc]
    rw [hmap, List.sum_map_mul_right]
    have hS : (App.partsCatalog.map
        fun p => p.basePrice * liveMultiplier pricingCatalog p.category).sum = 1585.99 := by
      have hP : liveMultiplier pricingCatalog "Processor" = 1.05 := rfl
      have hM : liveMultiplier pricingCatalog "Memory" = 0.98 := rfl
      have hS' : liveMultiplier pricingCatalog "Storage" = 1.10 := rfl
      have hN : liveMultiplier pricingCatalog "Network" = 1.00 := rfl
      have hW : liveMultiplier pricingCatalog "Power Supply" = 1.00 := rfl
      simp [App.partsCatalog, hP, hM, hS', hN, hW]
      norm_num
    rw [hS]
    have hq' : (q : ℚ) < 0 := by exact_mod_cast hq
    have hneg : (1585.99 : ℚ) * (q : ℚ) < 0 :=
      mul_neg_of_pos_of_neg (by norm_num) hq'
    simp only [if_pos]
    linarith

/-- Witness for C10 at the concrete stored quantity -5. -/
theorem negative_quantity_flows_through_witness :
    (-5 : Int) < 0 ∧
    filteredResults App.partsCatalog pricingCatalog [] "" (globalQty (-5))
      = (filterParts App.partsCatalog [] "").map (priceCalc pricingCatalog (-5)) :=
  ⟨by decide,
   (negative_quantity_flows_through App.partsCatalog pricingCatalog [] "" (-5) (by decide)).1⟩


theorem digitChar_isDigit {d : ℕ} (hd : d < 10) : (digitChar d).isDigit = true := by
  interval_cases d <;> decide

theorem natDigitsGo_digits :
    ∀ (fuel n : ℕ) (acc : List Char), (∀ c ∈ acc, c.isDigit = true) →
      ∀ c ∈ natDigitsGo fuel n acc, c.isDigit = true := by
  intro fuel
  induction fuel with
  | zero => intro n acc hacc c hc; exact hacc c hc
  | succ fuel ih =>
    intro n acc hacc c hc
    rw [natDigitsGo] at hc
    by_cases h : n < 10
    · rw [if_pos h] at hc
      rcases List.mem_cons.mp hc with rfl | hc
      · exact digitChar_isDigit h
      · exact hacc c hc
    · rw [if_neg h] at hc
      refine ih (n / 10) _ ?_ c hc
      intro x hx
      rcases List.mem_cons.mp hx with rfl | hx
      · exact digitChar_isDigit (Nat.mod_lt _ (by norm_num))
      · exact hacc x hx

theorem natDigitStr_digits (n : ℕ) : ∀ c ∈ natDigitStr n, c.isDigit = true :=
  natDigitsGo_digits _ _ _ (by simp)

theorem digitRunLength_dot (r : List Char) : digitRunLength ('.' :: r) = 0 := by
  have h : ('.' : Char).isDigit = false := by decide
  simp [digitRunLength, h]

theorem digitRunLength_digits_append (ds r : List Char)
    (hds : ∀ c ∈ ds, c.isDigit = true) (hr : digitRunLength r = 0) :
    digitRunLength (ds ++ r) = ds.length := by
  induction ds with
  | nil => simpa using hr
  | cons c cs ih =>
    have hc := hds c (by simp)
    simp [digitRunLength, hc, ih (fun x hx => hds x (by simp [hx]))]

theorem jsWordChar_of_isDigit {c : Char} (h : c.isDigit = true) : jsWordChar c = true := by
  simp [jsWordChar, Char.isAlphanum, h]

theorem jsGroupSepGo_dot (p : Option Char) (a b : Char) :
    jsGroupSepGo p ['.', a, b] = ['.', a, b] := by
  have hdot : ('.' : Char).isDigit = false := by decide
  have hw : jsWordChar '.' = false := by decide
  cases hb : b.isDigit <;>
    cases p <;>
      simp [jsGroupSepGo, digitRunLength, hdot, hw, hb]

theorem jsGroupSepGo_digits_append (ds : List Char) (a b : Char) :
    ∀ p : Char, (∀ c ∈ ds, c.isDigit = true) → jsWordChar p = true →
      jsGroupSepGo (some p) (ds ++ ['.', a, b]) = specGroupTail ds ++ ['.', a, b] := by
  induction ds with
  | nil =>
    intro p _ _
    simpa [specGroupTail] using jsGroupSepGo_dot (some p) a b
  | cons c cs ih =>
    intro p hds hp
    have hc : c.isDigit = true := hds c (by simp)
    have hcs : ∀ x ∈ cs, x.isDigit = true := fun x hx => hds x (by simp [hx])
    have hd : digitRunLength (c :: (cs ++ ['.', a, b])) = cs.length + 1 := by
      have h := digitRunLength_digits_append (c :: cs) ['.', a, b] hds (digitRunLength_dot _)
      simpa using h
    rw [List.cons_append]
    simp only [jsGroupSepGo, hd, hp]
    by_cases h3 : (cs.length + 1) % 3 = 0
    · have h3' : ((cs.length + 1) % 3 == 0) = true := by simp [h3]
      simp only [h3', Bool.true_and, Bool.and_true, bne_iff_ne, ne_eq, Nat.succ_ne_zero,
        not_false_eq_true, if_true]
      rw [ih c hcs (jsWordChar_of_isDigit hc)]
      simp [specGroupTail, h3]
    · have h3' : ((cs.length + 1) % 3 == 0) = false := by simp [h3]
      simp only [h3', Bool.true_and, Bool.false_and, Bool.and_false, if_false]
      rw [ih c hcs (jsWordChar_of_isDigit hc)]
      simp [specGroupTail, h3]

theorem jsGroupSepGo_top (ds : List Char) (a b : Char)
    (hds : ∀ c ∈ ds, c.isDigit = true) :
    jsGroupSepGo none (ds ++ ['.', a, b]) = specGroupDigits ds ++ ['.', a, b] := by
  cases ds with
  | nil => simpa [specGroupDigits] using jsGroupSepGo_dot none a b
  | cons c cs =>
    have hc : c.isDigit = true := hds c (by simp)
    have hcs : ∀ x ∈ cs, x.isDigit = true := fun x hx => hds x (by simp [hx])
    rw [List.cons_append]
    simp only [jsGroupSepGo, Bool.false_and]
    rw [jsGroupSepGo_digits_append cs a b c hcs (jsWordChar_of_isDigit hc)]
    simp [specGroupDigits]

/-- C9: for every non-negative currency amount, the Dashboard formatter
renders exactly the rounded cent value's integer digits with comma thousands
separators, a dot, and exactly two decimal digits — and nothing else
(`specCurrencyFormat` spells out that shape); in particular 23625.00 renders
as the string "23,625.00". -/
theorem currency_format_spec (amount : ℚ) (_hq : 0 ≤ amount) :
    Dashboard.formatCurrency amount
      = specCurrencyFormat (Int.floor (amount * 100 + 1 / 2)).toNat ∧
    Dashboard.formatCurrency 23625 = "23,625.00" := by
  constructor
  · show jsGroupSep (jsToFixed2 amount) = _
    simp only [jsToFixed2, jsGroupSep, specCurrencyFormat]
    congr 1
    have h1 := natDigitStr_digits ((Int.floor (amount * 100 + 1 / 2)).toNat / 100)
    simpa [pad2] using
      jsGroupSepGo_top (natDigitStr ((Int.floor (amount * 100 + 1 / 2)).toNat / 100))
        (digitChar ((Int.floor (amount * 100 + 1 / 2)).toNat % 100 / 10 % 10))
        (digitChar ((Int.floor (amount * 100 + 1 / 2)).toNat % 100 % 10)) h1
  · have hfloor : Int.floor ((23625 : ℚ) * 100 + 1 / 2) = 2362500 := by
      norm_num
    show jsGroupSep (jsToFixed2 23625) = "23,625.00"
    simp only [jsToFixed2, hfloor]
    decide

/-- Witness for C9 at the concrete amount 23625.00. -/
theorem currency_format_spec_witness :
    (0 : ℚ) ≤ 23625 ∧ Dashboard.formatCurrency 23625 = "23,625.00" :=
  ⟨by norm_num, (currency_format_spec 23625 (by norm_num)).2⟩

end CostOptimizer
